import Mathlib

/-!
Verification of the careermatch pipeline core: fit scoring, decision
mapping, JSON extraction/repair, section canonicalization, text
normalization, HTML escaping and the two-stage orchestration merge.
Python floats are modelled with rationals; Python round (banker's
rounding, ties to even) is modelled by pyRound.
-/

/-- Characters treated as whitespace by Python's str.strip and by the
regex class backslash-s on ASCII text: space, tab, LF, CR, VT, FF. -/
def isPySpace (c : Char) : Bool :=
  c = ' ' || c = '\t' || c = '\n' || c = '\r' || c = Char.ofNat 11 || c = Char.ofNat 12

/-- Python str.strip on a character list: drop whitespace at both ends. -/
def pyStripList (cs : List Char) : List Char :=
  ((cs.dropWhile isPySpace).reverse.dropWhile isPySpace).reverse

/-- Python str.strip for strings. -/
def pyStrip (s : String) : String := (pyStripList s.toList).asString

/-- Python round on a rational: nearest integer, ties to even. -/
def pyRound (q : ℚ) : ℤ :=
  let f : ℤ := ⌊q⌋
  let r : ℚ := q - f
  if r < 1/2 then f
  else if 1/2 < r then f + 1
  else if f % 2 = 0 then f else f + 1

/-- MatchItem from core.py: one scored requirement. The status field is a
string constrained by pydantic to match, partial or missing; the scoring
code compares it against those literals. -/
structure MatchItem where
  requirement : String
  status : String
  evidence : List String
deriving DecidableEq

/-- GapItem from core.py. The impact field is a string constrained by
pydantic to high, medium or low. -/
structure GapItem where
  gap : String
  impact : String
  how_to_fix : List String
deriving DecidableEq

/-- Inner section helper of compute_fit_score in web_helpers.py (named
section in the source; section is a Lean keyword). -/
def sectionScore (items : List MatchItem) (total : ℚ) : ℚ :=
  if items.isEmpty then 0
  else
    let w : ℚ := total / (items.length : ℚ)
    items.foldl (fun s it =>
      if it.status = "match" then s + w
      else if it.status = "partial" then s + 0.5 * w
      else s) 0

/-- compute_fit_score from web_helpers.py: weighted section sums, Python
round, clamp to the interval from 0 to 100. The source gives must_total
and nice_total the defaults 70.0 and 30.0. -/
def compute_fit_score (must_have nice_to_have : List MatchItem)
    (must_total nice_total : ℚ) : ℤ :=
  let score := sectionScore must_have must_total + sectionScore nice_to_have nice_total
  let score_i := pyRound score
  max 0 (min 100 score_i)

/-- Contribution factor per item status as the spec words it: full weight
for match, half for partial, zero for missing (and anything else). -/
def statusFactor (status : String) : ℚ :=
  if status = "match" then 1 else if status = "partial" then 1/2 else 0

/-- Section sum as the spec words it: weight times the sum of factors,
zero for the empty list. -/
def sectionSpec (items : List MatchItem) (total : ℚ) : ℚ :=
  if items.isEmpty then 0
  else (total / (items.length : ℚ)) * ((items.map (fun it => statusFactor it.status)).sum)

/-- Reference scoring algorithm written from the spec text: 70/30 section
weights, sum, round to nearest, clamp to the interval from 0 to 100. -/
def computeFitScoreSpec (must nice : List MatchItem) : ℤ :=
  max 0 (min 100 (pyRound (sectionSpec must 70 + sectionSpec nice 30)))

lemma foldl_status (w : ℚ) (items : List MatchItem) (a : ℚ) :
    items.foldl (fun s it =>
      if it.status = "match" then s + w
      else if it.status = "partial" then s + 0.5 * w
      else s) a
      = a + w * ((items.map (fun it => statusFactor it.status)).sum) := by
  induction items generalizing a with
  | nil => simp
  | cons x xs ih =>
    simp only [List.foldl_cons, List.map_cons, List.sum_cons, ih]
    by_cases h1 : x.status = "match"
    · simp only [h1, if_pos, statusFactor, if_true, String.reduceEq, ite_true]
      simp [statusFactor]
      ring
    · by_cases h2 : x.status = "partial"
      · simp [h1, h2, statusFactor]
        ring
      · simp [h1, h2, statusFactor]

lemma sectionScore_eq_spec (items : List MatchItem) (total : ℚ) :
    sectionScore items total = sectionSpec items total := by
  unfold sectionScore sectionSpec
  by_cases h : items.isEmpty
  · simp [h]
  · simp only [h, if_neg, Bool.false_eq_true, not_false_iff, ite_false, foldl_status]
    ring

/-- C1: compute_fit_score agrees with the reference algorithm of the spec
on every pair of lists, and on the two quoted examples: must_have with
one match, one partial, one missing plus nice_to_have with one match
yields 65, and two empty lists yield 0. -/
theorem compute_fit_score_matches_spec :
    (∀ must nice, compute_fit_score must nice 70 30 = computeFitScoreSpec must nice) ∧
    compute_fit_score
      [⟨"r1", "match", []⟩, ⟨"r2", "partial", []⟩, ⟨"r3", "missing", []⟩]
      [⟨"n1", "match", []⟩] 70 30 = 65 ∧
    compute_fit_score [] [] 70 30 = 0 := by
  refine ⟨?_, ?_, ?_⟩
  · intro must nice
    unfold compute_fit_score computeFitScoreSpec
    rw [sectionScore_eq_spec, sectionScore_eq_spec]
  · simp [compute_fit_score, sectionScore, pyRound]
    norm_num
  · simp [compute_fit_score, sectionScore, pyRound]

lemma pyRound_bounds (q : ℚ) : ⌊q⌋ ≤ pyRound q ∧ pyRound q ≤ ⌊q⌋ + 1 := by
  simp only [pyRound]
  split_ifs <;> omega

lemma pyRound_mono {q q' : ℚ} (h : q ≤ q') : pyRound q ≤ pyRound q' := by
  have hf : ⌊q⌋ ≤ ⌊q'⌋ := Int.floor_le_floor h
  rcases eq_or_lt_of_le hf with he | hlt
  · have hr : q - (⌊q⌋ : ℚ) ≤ q' - (⌊q'⌋ : ℚ) := by
      rw [← he]
      linarith
    simp only [pyRound, ← he]
    split_ifs <;> first | omega | (exfalso; linarith)
  · have h1 := (pyRound_bounds q).2
    have h2 := (pyRound_bounds q').1
    omega

/-- Upgrading a status as worded in the spec: missing to partial, partial
to match, or missing to match. -/
def statusUpgrade (a b : String) : Prop :=
  (a = "missing" ∧ b = "partial") ∨ (a = "partial" ∧ b = "match") ∨
  (a = "missing" ∧ b = "match")

lemma sectionSpec_mono (pre post : List MatchItem) (r : String) (e : List String)
    {st st' : String} (total : ℚ) (ht : 0 ≤ total)
    (hf : statusFactor st ≤ statusFactor st') :
    sectionSpec (pre ++ ⟨r, st, e⟩ :: post) total
      ≤ sectionSpec (pre ++ ⟨r, st', e⟩ :: post) total := by
  unfold sectionSpec
  have hne : ((pre ++ ⟨r, st, e⟩ :: post) : List MatchItem).isEmpty = false := by simp
  have hne' : ((pre ++ ⟨r, st', e⟩ :: post) : List MatchItem).isEmpty = false := by simp
  simp only [hne, hne', Bool.false_eq_true, if_false, List.length_append,
    List.length_cons, List.map_append, List.map_cons, List.sum_append, List.sum_cons]
  have hw : (0 : ℚ) ≤ total / ((pre.length + (post.length + 1) : ℕ) : ℚ) := by
    apply div_nonneg ht
    positivity
  apply mul_le_mul_of_nonneg_left _ hw
  linarith

/-- C7: compute_fit_score is monotonic in a single item's status: with
everything else fixed, upgrading one item of either list never decreases
the score. -/
theorem compute_fit_score_status_monotone :
    ∀ (pre post other : List MatchItem) (r : String) (e : List String) (st st' : String),
      statusUpgrade st st' →
      compute_fit_score (pre ++ ⟨r, st, e⟩ :: post) other 70 30
          ≤ compute_fit_score (pre ++ ⟨r, st', e⟩ :: post) other 70 30 ∧
      compute_fit_score other (pre ++ ⟨r, st, e⟩ :: post) 70 30
          ≤ compute_fit_score other (pre ++ ⟨r, st', e⟩ :: post) 70 30 := by
  intro pre post other r e st st' hup
  have hfac : statusFactor st ≤ statusFactor st' := by
    rcases hup with ⟨h1, h2⟩ | ⟨h1, h2⟩ | ⟨h1, h2⟩ <;> subst h1 <;> subst h2 <;>
      simp [statusFactor] <;> norm_num
  constructor
  · unfold compute_fit_score
    simp only [sectionScore_eq_spec]
    have hs := @sectionSpec_mono pre post r e st st' 70 (by norm_num) hfac
    have hr := pyRound_mono (add_le_add_right hs (sectionSpec other 30))
    exact max_le_max (le_refl 0) (min_le_min (le_refl 100) hr)
  · unfold compute_fit_score
    simp only [sectionScore_eq_spec]
    have hs := @sectionSpec_mono pre post r e st st' 30 (by norm_num) hfac
    have hr := pyRound_mono (add_le_add_left hs (sectionSpec other 70))
    exact max_le_max (le_refl 0) (min_le_min (le_refl 100) hr)

/-- Witness for C7 at a concrete input: upgrading the only must-have item
from missing to match. -/
theorem compute_fit_score_status_monotone_witness :
    compute_fit_score [⟨"r", "missing", []⟩] [] 70 30
      ≤ compute_fit_score [⟨"r", "match", []⟩] [] 70 30 :=
  (compute_fit_score_status_monotone [] [] [] "r" [] "missing" "match"
    (Or.inr (Or.inr ⟨rfl, rfl⟩))).1

/-- SuggestionItem from core.py after validation. The section field is
called section in the source; section is a Lean keyword, hence the
trailing underscore. -/
structure SuggestionItem where
  section_ : String
  change : String
  reason : String
  priority : String
deriving DecidableEq

/-- LinkedInSuggestionItem from core.py. -/
structure LinkedInSuggestionItem where
  section_ : String
  change : String
  reason : String
  priority : String
deriving DecidableEq

/-- ATSKeywordItem from core.py. -/
structure ATSKeywordItem where
  keyword : String
  where_to_add : String
  note : String
deriving DecidableEq

/-- FitReport from core.py: the merged final report. -/
structure FitReport where
  fit_score : ℤ
  confidence : String
  summary : String
  must_have_match : List MatchItem
  nice_to_have_match : List MatchItem
  gaps : List GapItem
  cv_suggestions : List SuggestionItem
  linkedin_suggestions : List LinkedInSuggestionItem
  ats_keywords : List ATSKeywordItem
  final_note : String
deriving DecidableEq

/-- Result record of decide_ui in core.py (a dict in the source). -/
structure Decision where
  code : String
  badge : String
  label : String
  reason : String
  next_step : String
deriving DecidableEq

/-- decide_ui from core.py: maps a FitReport to the YES/MAYBE/NO
recommendation. The Python truthiness tests on list length and any()
are modelled by the corresponding decidable propositions. -/
def decide_ui (report : FitReport) : Decision :=
  let fit_score := report.fit_score
  let must := report.must_have_match
  let gaps := report.gaps
  let missing_must := must.filter (fun m => m.status == "missing")
  let has_missing_must := 0 < missing_must.length
  let has_high_gap := ∃ g ∈ gaps, g.impact = "high"
  if fit_score ≥ 75 then
    if has_missing_must ∨ has_high_gap then
      { code := "MAYBE", badge := "maybe",
        label := "⚠️ Worth applying only if highly motivated",
        reason := "Strong score, but there are gaps that could affect screening. Clarify them with concrete evidence or projects.",
        next_step := "Apply only if you can clearly demonstrate or mitigate the highlighted gaps (examples, portfolio, interview framing)." }
    else
      { code := "YES", badge := "yes",
        label := "✅ Worth applying",
        reason := "Strong alignment with key requirements; remaining gaps are not blocking.",
        next_step := "Apply and tailor your CV and LinkedIn profile to highlight your strengths." }
  else if fit_score ≥ 55 then
    { code := "MAYBE", badge := "maybe",
      label := "⚠️ Worth applying only if highly motivated",
      reason := "Decent alignment, but concrete evidence is needed to pass initial screening.",
      next_step := "Apply only if you can clearly demonstrate the missing skills with real examples or projects." }
  else
    let reason :=
      if has_missing_must then
        "Some key requirements appear missing, with a high risk of early screening rejection."
      else if has_high_gap then
        "There are high-impact gaps that likely block the role for now."
      else "Fit currently low."
    { code := "NO", badge := "no",
      label := "❌ Not worth applying (for now)",
      reason := reason,
      next_step := "Focus on better-aligned roles or build targeted projects before applying." }

/-- A must-have item with status missing exists. -/
def hasMissingMust (r : FitReport) : Prop :=
  ∃ m ∈ r.must_have_match, m.status = "missing"

/-- A gap with impact high exists. -/
def hasHighGap (r : FitReport) : Prop :=
  ∃ g ∈ r.gaps, g.impact = "high"

instance (r : FitReport) : Decidable (hasMissingMust r) :=
  show Decidable (∃ m ∈ r.must_have_match, m.status = "missing") from inferInstance

instance (r : FitReport) : Decidable (hasHighGap r) :=
  show Decidable (∃ g ∈ r.gaps, g.impact = "high") from inferInstance

lemma filter_missing_pos_iff (l : List MatchItem) :
    0 < (l.filter (fun m => m.status == "missing")).length ↔
      ∃ m ∈ l, m.status = "missing" := by
  rw [List.length_pos]
  constructor
  · intro h
    rcases List.exists_mem_of_ne_nil _ h with ⟨m, hm⟩
    rcases List.mem_filter.mp hm with ⟨hmem, hst⟩
    exact ⟨m, hmem, by simpa using hst⟩
  · rintro ⟨m, hmem, hst⟩ hnil
    have : m ∈ l.filter (fun m => m.status == "missing") :=
      List.mem_filter.mpr ⟨hmem, by simpa using hst⟩
    simp [hnil] at this

/-- C4: the decision code is YES exactly for score at least 75 with no
missing must-have and no high gap, MAYBE for score at least 75 with such
a blocker or for any score in the interval from 55 to 74, and NO below
55; for NO the reason is chosen by checking missing must-haves first,
then high gaps, then the generic low-fit text. -/
theorem decide_ui_matches_spec :
    ∀ r : FitReport,
      ((decide_ui r).code =
        if 75 ≤ r.fit_score then
          if hasMissingMust r ∨ hasHighGap r then "MAYBE" else "YES"
        else if 55 ≤ r.fit_score then "MAYBE"
        else "NO") ∧
      ((decide_ui r).reason =
        if 75 ≤ r.fit_score then
          if hasMissingMust r ∨ hasHighGap r then
            "Strong score, but there are gaps that could affect screening. Clarify them with concrete evidence or projects."
          else "Strong alignment with key requirements; remaining gaps are not blocking."
        else if 55 ≤ r.fit_score then
          "Decent alignment, but concrete evidence is needed to pass initial screening."
        else if hasMissingMust r then
          "Some key requirements appear missing, with a high risk of early screening rejection."
        else if hasHighGap r then
          "There are high-impact gaps that likely block the role for now."
        else "Fit currently low.") := by
  intro r
  unfold decide_ui hasMissingMust hasHighGap
  simp only [ge_iff_le, filter_missing_pos_iff]
  constructor <;> split_ifs <;> rfl

/-- ALLOWED_SECTIONS from core.py. -/
def ALLOWED_SECTIONS : List String :=
  ["summary", "experience", "skills", "projects", "other"]

/-- Synonym table of SuggestionItem.normalize_section in core.py. -/
def sectionMapping : List (String × String) :=
  [("education", "other"),
   ("certifications", "skills"),
   ("certification", "skills"),
   ("training", "skills"),
   ("courses", "skills"),
   ("course", "skills"),
   ("projects", "projects"),
   ("project", "projects"),
   ("work experience", "experience"),
   ("experience", "experience"),
   ("skills", "skills"),
   ("summary", "summary"),
   ("about", "summary")]

/-- ASCII lower casing of a string, modelling Python str.lower on the
inputs relevant here. -/
def pyLower (s : String) : String := s.toList.map Char.toLower |>.asString

/-- normalize_section from core.py: a non-string input (modelled as none)
becomes other; a string is stripped, lower-cased, passed through the
synonym table with itself as default, and collapsed to other when the
result is outside ALLOWED_SECTIONS. -/
def normalize_section (v : Option String) : String :=
  match v with
  | none => "other"
  | some raw =>
    let s := pyLower (pyStrip raw)
    let s := ((sectionMapping.lookup s).getD s)
    if s ∈ ALLOWED_SECTIONS then s else "other"

/-- C6: normalize_section always lands in the five allowed sections,
whatever the raw value (including the non-string case); the quoted
examples canonicalize as the spec states, case- and
whitespace-insensitively, and the raw string is never kept when it is
outside the allowed set. -/
theorem normalize_section_in_allowed :
    (∀ v, normalize_section v ∈ ALLOWED_SECTIONS) ∧
    normalize_section (some "Certifications") = "skills" ∧
    normalize_section (some "  certifications ") = "skills" ∧
    normalize_section (some "EDUCATION") = "other" ∧
    normalize_section (some "Random Thing") = "other" ∧
    normalize_section none = "other" := by
  refine ⟨?_, by decide, by decide, by decide, by decide, by decide⟩
  intro v
  match v with
  | none => decide
  | some raw =>
    unfold normalize_section
    dsimp only
    split_ifs with h
    · exact h
    · decide

/-- FitCore from web_helpers.py: stage-1 LLM output after validation. -/
structure FitCore where
  fit_score : ℤ
  confidence : String
  must_have_match : List MatchItem
  nice_to_have_match : List MatchItem
  gaps : List GapItem
deriving DecidableEq

/-- FitSuggestions from web_helpers.py: stage-2 LLM output after
validation. -/
structure FitSuggestions where
  summary : String
  cv_suggestions : List SuggestionItem
  linkedin_suggestions : List LinkedInSuggestionItem
  ats_keywords : List ATSKeywordItem
  final_note : String
deriving DecidableEq

/-- The all-defaults FitSuggestions() value substituted in
web_helpers.py when the stage-2 call fails. -/
def defaultFitSuggestions : FitSuggestions :=
  { summary := "", cv_suggestions := [], linkedin_suggestions := [],
    ats_keywords := [], final_note := "" }

/-- The suggestions value used by the merge: the stage-2 result on
success, the defaults when stage 2 raised (the try/except in
process_job). -/
def mergeSuggestions (stage2 : Except String FitSuggestions) : FitSuggestions :=
  match stage2 with
  | Except.ok s => s
  | Except.error _ => defaultFitSuggestions

/-- process_job from web_helpers.py with the two LLM calls abstracted by
their outcomes: a stage-1 failure propagates (the call is outside any
try), a stage-2 failure is swallowed and replaced by defaults, and the
final FitReport is merged exactly as in the source. Debug-artifact and
output-file writes are observational side effects and are omitted. -/
def process_job (stage1 : Except String FitCore)
    (stage2 : Except String FitSuggestions) : Except String FitReport :=
  match stage1 with
  | Except.error e => Except.error e
  | Except.ok fit_core =>
    let computed_score :=
      compute_fit_score fit_core.must_have_match fit_core.nice_to_have_match 70 30
    let suggestions := mergeSuggestions stage2
    Except.ok
      { fit_score := computed_score,
        confidence := fit_core.confidence,
        summary := suggestions.summary,
        must_have_match := fit_core.must_have_match,
        nice_to_have_match := fit_core.nice_to_have_match,
        gaps := fit_core.gaps,
        cv_suggestions := suggestions.cv_suggestions,
        linkedin_suggestions := suggestions.linkedin_suggestions,
        ats_keywords := suggestions.ats_keywords,
        final_note := suggestions.final_note }

/-- run_job from webapp.py reduced to its status outcome: DONE when
process_job returns normally, ERROR when an exception escapes. -/
def run_job_status (outcome : Except String FitReport) : String :=
  match outcome with
  | Except.ok _ => "DONE"
  | Except.error _ => "ERROR"

/-- C2: when stage 1 succeeds and stage 2 fails, process_job still
returns a report carrying the stage-1 confidence, match lists and gaps,
the recomputed score, and every suggestion field at its default, and the
job status becomes DONE, not ERROR. -/
theorem process_job_stage2_failure_nonfatal :
    ∀ (core : FitCore) (err : String),
      process_job (Except.ok core) (Except.error err) = Except.ok
        { fit_score := compute_fit_score core.must_have_match core.nice_to_have_match 70 30,
          confidence := core.confidence,
          summary := "",
          must_have_match := core.must_have_match,
          nice_to_have_match := core.nice_to_have_match,
          gaps := core.gaps,
          cv_suggestions := [],
          linkedin_suggestions := [],
          ats_keywords := [],
          final_note := "" } ∧
      run_job_status (process_job (Except.ok core) (Except.error err)) = "DONE" := by
  intro core err
  exact ⟨rfl, rfl⟩

/-- C3: on every successful run the merged report's fit_score is the
recomputed score from the stage-1 match lists; confidence, match lists
and gaps come from stage 1; summary, the three suggestion lists and
final_note come from stage 2 or its defaults; and the stage-1 LLM
fit_score is discarded: changing it never changes the result. -/
theorem process_job_score_recomputed :
    (∀ (core : FitCore) (stage2 : Except String FitSuggestions),
      process_job (Except.ok core) stage2 = Except.ok
        { fit_score := compute_fit_score core.must_have_match core.nice_to_have_match 70 30,
          confidence := core.confidence,
          summary := (mergeSuggestions stage2).summary,
          must_have_match := core.must_have_match,
          nice_to_have_match := core.nice_to_have_match,
          gaps := core.gaps,
          cv_suggestions := (mergeSuggestions stage2).cv_suggestions,
          linkedin_suggestions := (mergeSuggestions stage2).linkedin_suggestions,
          ats_keywords := (mergeSuggestions stage2).ats_keywords,
          final_note := (mergeSuggestions stage2).final_note }) ∧
    (∀ (core : FitCore) (stage2 : Except String FitSuggestions) (n : ℤ),
      process_job (Except.ok { core with fit_score := n }) stage2 =
        process_job (Except.ok core) stage2) := by
  constructor
  · intro core stage2
    rfl
  · intro core stage2 n
    rfl

/-- Span matched by the greedy DOTALL brace regex of
extract_json_safely: from the first opening brace to the last closing
brace, provided the latter comes after the former. -/
def braceSpan (cs : List Char) : Option (List Char) :=
  match cs.findIdx? (fun c => c = '{') with
  | none => none
  | some i =>
    match cs.reverse.findIdx? (fun c => c = '}') with
    | none => none
    | some rj =>
      let j := cs.length - 1 - rj
      if i < j then some ((cs.drop i).take (j - i + 1)) else none

/-- One left-to-right pass of the trailing-comma removal regex sub: a
comma followed by optional whitespace and a closing brace or bracket is
replaced by that closer, scanning resuming after it. The fuel argument
makes the recursion structural; it only decreases when the list
shrinks, so fuel equal to the length never runs out. -/
def repairCommasFuel : ℕ → List Char → List Char
  | 0, cs => cs
  | _ + 1, [] => []
  | fuel + 1, c :: rest =>
    if c = ',' then
      match rest.dropWhile isPySpace with
      | [] => c :: repairCommasFuel fuel rest
      | b :: tail =>
        if b = '}' ∨ b = ']' then b :: repairCommasFuel fuel tail
        else c :: repairCommasFuel fuel rest
    else c :: repairCommasFuel fuel rest

/-- Trailing-comma removal of extract_json_safely. -/
def repairCommas (cs : List Char) : List Char := repairCommasFuel cs.length cs

/-- extract_json_safely from web_helpers.py, with Python exceptions
modelled by the error side: empty input and absent brace span fail;
otherwise the span is stripped, carriage returns and newlines become
spaces, and trailing commas before closers are dropped. -/
def extract_json_safely (text : String) : Except String String :=
  if text = "" then Except.error "Empty LLM output"
  else
    match braceSpan text.toList with
    | none => Except.error "No JSON object found in LLM output"
    | some span =>
      let s1 := pyStripList span
      let s2 := s1.map (fun c => if c = '\r' then ' ' else if c = '\n' then ' ' else c)
      Except.ok (repairCommas s2).asString

/-- Whitespace accepted between JSON tokens. -/
def jsonWs (c : Char) : Bool := c = ' ' || c = '\t' || c = '\n' || c = '\r'

/-- Skip JSON whitespace. -/
def skipJsonWs (cs : List Char) : List Char := cs.dropWhile jsonWs

/-- Remainder after a JSON string body once the opening quote has been
consumed. -/
def jsonStringBody : List Char → Option (List Char)
  | [] => none
  | '"' :: rest => some rest
  | '\\' :: _ :: rest => jsonStringBody rest
  | '\\' :: [] => none
  | _ :: rest => jsonStringBody rest

/-- Remainder after a JSON number. -/
def jsonNumber (cs : List Char) : Option (List Char) :=
  let cs1 := match cs with
    | '-' :: r => r
    | _ => cs
  let ds := cs1.takeWhile Char.isDigit
  if ds.isEmpty then none
  else
    let cs2 := cs1.drop ds.length
    let cs3 := match cs2 with
      | '.' :: r =>
        let fs := r.takeWhile Char.isDigit
        if fs.isEmpty then none else some (r.drop fs.length)
      | _ => some cs2
    match cs3 with
    | none => none
    | some cs4 =>
      match cs4 with
      | 'e' :: r | 'E' :: r =>
        let r1 := match r with
          | '+' :: r2 => r2
          | '-' :: r2 => r2
          | _ => r
        let es := r1.takeWhile Char.isDigit
        if es.isEmpty then none else some (r1.drop es.length)
      | _ => some cs4

/-- Modelled from the spec: acceptance of Python json.loads (which is
standard-library code, not part of src). Mode 0 parses one value, mode 1
parses object members after the opening brace, any other mode parses
array elements after the opening bracket; the result is the unconsumed
remainder. Recursion is structural on the fuel. -/
def jsonAux : ℕ → ℕ → List Char → Option (List Char)
  | 0, _, _ => none
  | fuel + 1, 0, cs =>
    match skipJsonWs cs with
    | [] => none
    | '"' :: rest => jsonStringBody rest
    | '{' :: rest =>
      (match skipJsonWs rest with
       | '}' :: r2 => some r2
       | r => jsonAux fuel 1 r)
    | '[' :: rest =>
      (match skipJsonWs rest with
       | ']' :: r2 => some r2
       | r => jsonAux fuel 2 r)
    | 't' :: 'r' :: 'u' :: 'e' :: rest => some rest
    | 'f' :: 'a' :: 'l' :: 's' :: 'e' :: rest => some rest
    | 'n' :: 'u' :: 'l' :: 'l' :: rest => some rest
    | rest => jsonNumber rest
  | fuel + 1, 1, cs =>
    (match skipJsonWs cs with
     | '"' :: rest =>
       (match jsonStringBody rest with
        | none => none
        | some r1 =>
          (match skipJsonWs r1 with
           | ':' :: r2 =>
             (match jsonAux fuel 0 r2 with
              | none => none
              | some r3 =>
                (match skipJsonWs r3 with
                 | ',' :: r4 => jsonAux fuel 1 r4
                 | '}' :: r4 => some r4
                 | _ => none))
           | _ => none))
     | _ => none)
  | fuel + 1, _, cs =>
    (match jsonAux fuel 0 cs with
     | none => none
     | some r1 =>
       (match skipJsonWs r1 with
        | ',' :: r2 => jsonAux fuel 2 r2
        | ']' :: r2 => some r2
        | _ => none))

/-- Modelled from the spec: a string parses as a single JSON document. -/
def jsonParses (s : String) : Bool :=
  match jsonAux (2 * s.toList.length + 2) 0 s.toList with
  | some rest => (skipJsonWs rest).isEmpty
  | none => false

/-- C5: extract_json_safely fails exactly on empty input or when no
first-brace-to-last-brace span exists; on the quoted example the
repaired candidate parses as JSON; the greedy span keeps everything
between the first opening and last closing brace; and a returned
candidate need not parse in general. -/
theorem extract_json_safely_spec :
    (∀ text : String,
      (∃ e, extract_json_safely text = Except.error e) ↔
        (text = "" ∨ braceSpan text.toList = none)) ∧
    extract_json_safely "Here is the result: \x7b\"a\":1,\x7d done" =
      Except.ok "\x7b\"a\":1\x7d" ∧
    jsonParses "\x7b\"a\":1\x7d" = true ∧
    extract_json_safely "no braces here" =
      Except.error "No JSON object found in LLM output" ∧
    extract_json_safely "" = Except.error "Empty LLM output" ∧
    extract_json_safely "x\x7ba\x7dy\x7bb\x7dz" = Except.ok "\x7ba\x7dy\x7bb\x7d" ∧
    jsonParses "\x7ba\x7dy\x7bb\x7d" = false := by
  refine ⟨?_, by rfl, by decide, by rfl, by rfl, by rfl, by decide⟩
  intro text
  by_cases ht : text = ""
  · subst ht
    constructor
    · intro _
      exact Or.inl rfl
    · intro _
      exact ⟨"Empty LLM output", rfl⟩
  · constructor
    · rintro ⟨e, he⟩
      unfold extract_json_safely at he
      rw [if_neg ht] at he
      cases hb : braceSpan text.toList with
      | none => exact Or.inr rfl
      | some s =>
        rw [hb] at he
        simp at he
    · intro h
      rcases h with h | h
      · exact absurd h ht
      · unfold extract_json_safely
        rw [if_neg ht, h]
        exact ⟨_, rfl⟩

/-- Character class of the normalizer regexes in utility.py: ASCII
letters and digits plus the Latin-1 accented ranges A-grave to O-umlaut,
O-slash to o-umlaut and o-slash to y-umlaut. -/
def isWordChar (c : Char) : Bool :=
  ('A' ≤ c && c ≤ 'Z') || ('a' ≤ c && c ≤ 'z') || ('0' ≤ c && c ≤ '9') ||
  (Char.ofNat 0xC0 ≤ c && c ≤ Char.ofNat 0xD6) ||
  (Char.ofNat 0xD8 ≤ c && c ≤ Char.ofNat 0xF6) ||
  (Char.ofNat 0xF8 ≤ c && c ≤ Char.ofNat 0xFF)

/-- Non-overlapping count of the word-whitespace-word findall pattern of
normalize_spaced_text: a match consumes both word characters and the
whitespace run; on failure the scan advances one character. Fuel makes
the recursion structural and never runs out at fuel = length. -/
def countPairsFuel : ℕ → List Char → ℕ
  | 0, _ => 0
  | _ + 1, [] => 0
  | fuel + 1, c :: rest =>
    if isWordChar c then
      let ws := rest.takeWhile isPySpace
      if ws.isEmpty then countPairsFuel fuel rest
      else
        match rest.drop ws.length with
        | d :: tail =>
          if isWordChar d then 1 + countPairsFuel fuel tail
          else countPairsFuel fuel rest
        | [] => countPairsFuel fuel rest
    else countPairsFuel fuel rest

/-- Substitution deleting a whitespace run between a word character and
a following word character (lookahead, not consumed), as the second
regex of normalize_spaced_text does. -/
def collapseBetweenFuel : ℕ → List Char → List Char
  | 0, cs => cs
  | _ + 1, [] => []
  | fuel + 1, c :: rest =>
    if isWordChar c then
      let ws := rest.takeWhile isPySpace
      if ws.isEmpty then c :: collapseBetweenFuel fuel rest
      else
        match rest.drop ws.length with
        | d :: tail =>
          if isWordChar d then c :: collapseBetweenFuel fuel (d :: tail)
          else c :: collapseBetweenFuel fuel rest
        | [] => c :: collapseBetweenFuel fuel rest
    else c :: collapseBetweenFuel fuel rest

/-- Substitution replacing every whitespace run of length at least two
with one space, as the multi-space regex of normalize_spaced_text does;
a lone whitespace character is left as it is. -/
def collapseMultiFuel : ℕ → List Char → List Char
  | 0, cs => cs
  | _ + 1, [] => []
  | fuel + 1, c :: rest =>
    if isPySpace c then
      let ws := rest.takeWhile isPySpace
      if ws.isEmpty then c :: collapseMultiFuel fuel rest
      else ' ' :: collapseMultiFuel fuel (rest.drop ws.length)
    else c :: collapseMultiFuel fuel rest

/-- normalize_spaced_text from utility.py: strip, return empty on empty,
count the spacing-artifact pairs, and either only collapse multi-space
runs (under 25 pairs) or first delete every whitespace run between word
characters and then collapse the remaining multi-space runs. -/
def normalize_spaced_text (text : String) : String :=
  let t := pyStrip text
  if t = "" then ""
  else
    let cs := t.toList
    if countPairsFuel cs.length cs < 25 then
      pyStrip (collapseMultiFuel cs.length cs).asString
    else
      let collapsed := collapseBetweenFuel cs.length cs
      pyStrip (collapseMultiFuel collapsed.length collapsed).asString

/-- Deletion of only the single-character whitespace runs lying between
two word characters, which is what the claim's wording prescribes for
the spacing-artifact branch. -/
def collapseSingleFuel : ℕ → List Char → List Char
  | 0, cs => cs
  | _ + 1, [] => []
  | fuel + 1, c :: rest =>
    match rest with
    | w :: d :: tail =>
      if isWordChar c && isPySpace w && isWordChar d then
        c :: collapseSingleFuel fuel (d :: tail)
      else c :: collapseSingleFuel fuel rest
    | _ => c :: collapseSingleFuel fuel rest

/-- The text normalizer exactly as the claim words it: in the
spacing-artifact branch only single-whitespace runs between two word
characters are deleted, and the remaining runs of two or more whitespace
characters are collapsed to one space afterwards. -/
def normalizeSpacedTextClaim (text : String) : String :=
  let t := pyStrip text
  if t = "" then ""
  else
    let cs := t.toList
    if countPairsFuel cs.length cs < 25 then
      pyStrip (collapseMultiFuel cs.length cs).asString
    else
      let collapsed := collapseSingleFuel cs.length cs
      pyStrip (collapseMultiFuel collapsed.length collapsed).asString

/-- Spaced-out text with more than 25 artifact pairs followed by a
double space between two word characters: the code deletes the double
space entirely, the claim's wording would keep one space. -/
def spacedExample : String :=
  "a b c d e f g h i j k l m n o p q r s t u v w x y z a b c d e f g h i j k l m n o p q r s t u v w x y z u  v"

/-- C9 counterexample: on spacedExample the code and the claim's wording
disagree, so the claim as stated is false of the code. -/
theorem normalize_spaced_text_claim_false :
    normalize_spaced_text spacedExample ≠ normalizeSpacedTextClaim spacedExample := by
  decide

lemma dropWhile_idem (p : Char → Bool) (l : List Char) :
    (l.dropWhile p).dropWhile p = l.dropWhile p := by
  induction l with
  | nil => simp
  | cons a t ih =>
    by_cases h : p a
    · simp [List.dropWhile_cons, h, ih]
    · simp [List.dropWhile_cons, h]

lemma strip_no_leading (X : List Char) (hX : X.dropWhile isPySpace = X) :
    ((X.reverse.dropWhile isPySpace).reverse).dropWhile isPySpace
      = (X.reverse.dropWhile isPySpace).reverse := by
  cases hY : (X.reverse.dropWhile isPySpace).reverse with
  | nil => simp
  | cons y t =>
    have hpre : (X.reverse.dropWhile isPySpace).reverse <+: X := by
      have hsuf : X.reverse.dropWhile isPySpace <:+ X.reverse :=
        List.dropWhile_suffix _
      have h2 := List.reverse_prefix.mpr hsuf
      simpa using h2
    rw [hY] at hpre
    obtain ⟨u, hu⟩ := hpre
    by_cases hpy : isPySpace y
    · exfalso
      have hXd := hX
      rw [← hu, List.cons_append, List.dropWhile_cons, if_pos hpy] at hXd
      have hlen : (List.dropWhile isPySpace (t ++ u)).length ≤ (t ++ u).length :=
        (List.dropWhile_suffix isPySpace).length_le
      rw [hXd] at hlen
      simp at hlen
    · simp [List.dropWhile_cons, hpy]

lemma pyStripList_idem (cs : List Char) :
    pyStripList (pyStripList cs) = pyStripList cs := by
  unfold pyStripList
  rw [strip_no_leading (cs.dropWhile isPySpace) (dropWhile_idem _ _),
    List.reverse_reverse, dropWhile_idem]

lemma pyStrip_idem (s : String) : pyStrip (pyStrip s) = pyStrip s := by
  unfold pyStrip
  rw [List.toList_asString, pyStripList_idem]

lemma normalize_spaced_text_form (s : String) :
    normalize_spaced_text s = "" ∨ ∃ z, normalize_spaced_text s = pyStrip z := by
  by_cases h1 : pyStrip s = ""
  · left
    simp [normalize_spaced_text, h1]
  · by_cases h2 :
      countPairsFuel (pyStrip s).length (pyStrip s).data < 25
    · right
      refine ⟨(collapseMultiFuel (pyStrip s).toList.length (pyStrip s).toList).asString, ?_⟩
      simp [normalize_spaced_text, h1, h2]
    · right
      refine ⟨(collapseMultiFuel
          (collapseBetweenFuel (pyStrip s).toList.length (pyStrip s).toList).length
          (collapseBetweenFuel (pyStrip s).toList.length (pyStrip s).toList)).asString, ?_⟩
      simp [normalize_spaced_text, h1, h2]

/-- C9 amended: the normalizer differs from the claim only in the
spacing-artifact branch, where it deletes every whitespace run (of any
length, not only single characters) standing between two word
characters before collapsing the remaining multi-space runs; output is
always trimmed, blank input yields the empty string, and below 25 pairs
only multi-space runs are collapsed. -/
theorem normalize_spaced_text_spec :
    (∀ s : String, pyStrip (normalize_spaced_text s) = normalize_spaced_text s) ∧
    (∀ s : String, pyStrip s = "" → normalize_spaced_text s = "") ∧
    normalize_spaced_text "" = "" ∧
    normalize_spaced_text spacedExample =
      "abcdefghijklmnopqrstuvwxyzabcdefghijklmnopqrstuvwxyzuv" ∧
    normalize_spaced_text "a  b" = "a b" := by
  refine ⟨?_, ?_, by decide, by decide, by decide⟩
  · intro s
    rcases normalize_spaced_text_form s with h | ⟨z, h⟩
    · rw [h]
      rfl
    · rw [h, pyStrip_idem]
  · intro s h
    unfold normalize_spaced_text
    simp [h]

/-- Witness for C9 at a concrete input: an all-whitespace input yields
the empty string. -/
theorem normalize_spaced_text_spec_witness : normalize_spaced_text "   " = "" :=
  normalize_spaced_text_spec.2.1 "   " (by decide)

/-- Sort key of render_report_html for gaps: the Python dict lookup with
default 3 for unknown impacts. -/
def impactRank (g : GapItem) : ℕ :=
  if g.impact = "high" then 0
  else if g.impact = "medium" then 1
  else if g.impact = "low" then 2
  else 3

/-- Stable insertion used to model Python's sorted (a stable sort; any
stable sort by the same key yields the same list). -/
def insertByRank (g : GapItem) : List GapItem → List GapItem
  | [] => [g]
  | h :: t => if impactRank h < impactRank g then h :: insertByRank g t else g :: h :: t

/-- Python sorted by impactRank, stable. -/
def sortGaps (l : List GapItem) : List GapItem := l.foldr insertByRank []

/-- Top-blockers aggregate of render_report_html in core.py: sort the
gaps by impact, keep only high and medium ones, cap at 3, and fall back
to the missing must-have requirement names when that list is empty. -/
def topBlockers (report : FitReport) : List String :=
  let gaps_sorted := sortGaps report.gaps
  let blockers :=
    ((gaps_sorted.filter (fun g => g.impact == "high" || g.impact == "medium")).map
      (fun g => g.gap)).take 3
  if blockers.isEmpty then
    ((report.must_have_match.filter (fun m => m.status == "missing")).map
      (fun m => m.requirement)).take 3
  else blockers

/-- Top-blockers aggregate exactly as the claim words it: all gaps sorted
by impact and capped at 3, with the fallback only when the gaps list is
empty. -/
def topBlockersClaim (report : FitReport) : List String :=
  if report.gaps.isEmpty then
    ((report.must_have_match.filter (fun m => m.status == "missing")).map
      (fun m => m.requirement)).take 3
  else ((sortGaps report.gaps).map (fun g => g.gap)).take 3

/-- A report with one low-impact gap and one missing must-have: the code
drops the low gap and falls back to the requirement name although the
gaps list is not empty. -/
def lowGapReport : FitReport :=
  { fit_score := 40, confidence := "low", summary := "",
    must_have_match := [⟨"reqX", "missing", []⟩],
    nice_to_have_match := [], gaps := [⟨"g1", "low", []⟩],
    cv_suggestions := [], linkedin_suggestions := [], ats_keywords := [],
    final_note := "" }

/-- C8 counterexample: on lowGapReport the renderer's blockers differ
from the claim's description, so the claim as stated is false of the
code. -/
theorem topBlockers_claim_false :
    topBlockers lowGapReport ≠ topBlockersClaim lowGapReport := by
  decide

lemma insertByRank_skip (g : GapItem) (xs ys : List GapItem)
    (h : ∀ x ∈ xs, impactRank x < impactRank g) :
    insertByRank g (xs ++ ys) = xs ++ insertByRank g ys := by
  induction xs with
  | nil => rfl
  | cons a t ih =>
    have ha := h a (List.mem_cons_self a t)
    have ht := fun x hx => h x (List.mem_cons_of_mem a hx)
    simp [insertByRank, ha, ih ht]

lemma insertByRank_here (g : GapItem) (ys : List GapItem)
    (h : ∀ y ∈ ys, ¬ impactRank y < impactRank g) :
    insertByRank g ys = g :: ys := by
  cases ys with
  | nil => rfl
  | cons a t =>
    have ha := h a (List.mem_cons_self a t)
    simp [insertByRank, ha]

lemma impactRank_cases (g : GapItem) :
    impactRank g = 0 ∨ impactRank g = 1 ∨ impactRank g = 2 ∨ impactRank g = 3 := by
  unfold impactRank
  split_ifs <;> simp

lemma mem_filter_rank {l : List GapItem} {k : ℕ} {x : GapItem}
    (hx : x ∈ l.filter (fun g => impactRank g == k)) : impactRank x = k := by
  have := (List.mem_filter.mp hx).2
  simpa using this

lemma sortGaps_grouped (l : List GapItem) :
    sortGaps l =
      l.filter (fun g => impactRank g == 0) ++ l.filter (fun g => impactRank g == 1) ++
      l.filter (fun g => impactRank g == 2) ++ l.filter (fun g => impactRank g == 3) := by
  induction l with
  | nil => rfl
  | cons a t ih =>
    have step : sortGaps (a :: t) = insertByRank a (sortGaps t) := rfl
    rw [step, ih]
    rcases impactRank_cases a with h | h | h | h
    · rw [insertByRank_here]
      · simp [List.filter_cons, h]
      · intro y hy
        omega
    · rw [List.append_assoc, List.append_assoc, insertByRank_skip, insertByRank_here]
      · simp [List.filter_cons, h]
      · intro y hy
        simp only [List.append_assoc, List.mem_append] at hy
        rcases hy with hy | hy | hy
        · have := mem_filter_rank hy
          omega
        · have := mem_filter_rank hy
          omega
        · have := mem_filter_rank hy
          omega
      · intro x hx
        have := mem_filter_rank hx
        omega
    · rw [List.append_assoc, List.append_assoc, insertByRank_skip, insertByRank_skip,
        insertByRank_here]
      · simp [List.filter_cons, h]
      · intro y hy
        simp only [List.mem_append] at hy
        rcases hy with hy | hy
        · have := mem_filter_rank hy
          omega
        · have := mem_filter_rank hy
          omega
      · intro x hx
        have := mem_filter_rank hx
        omega
      · intro x hx
        have := mem_filter_rank hx
        omega
    · rw [List.append_assoc, List.append_assoc, insertByRank_skip, insertByRank_skip,
        insertByRank_skip, insertByRank_here]
      · simp [List.filter_cons, h]
      · intro y hy
        have := mem_filter_rank hy
        omega
      · intro x hx
        have := mem_filter_rank hx
        omega
      · intro x hx
        have := mem_filter_rank hx
        omega
      · intro x hx
        have := mem_filter_rank hx
        omega

lemma rank_eq_high {g : GapItem} (h : impactRank g = 0) : g.impact = "high" := by
  unfold impactRank at h
  split_ifs at h with h1 h2 h3
  all_goals first | exact h1 | omega

lemma rank_eq_med {g : GapItem} (h : impactRank g = 1) : g.impact = "medium" := by
  unfold impactRank at h
  split_ifs at h with h1 h2 h3
  all_goals first | exact h2 | omega

lemma rank_eq_low {g : GapItem} (h : impactRank g = 2) : g.impact = "low" := by
  unfold impactRank at h
  split_ifs at h with h1 h2 h3
  all_goals first | exact h3 | omega

lemma rank_eq_other {g : GapItem} (h : impactRank g = 3) :
    g.impact ≠ "high" ∧ g.impact ≠ "medium" := by
  unfold impactRank at h
  split_ifs at h with h1 h2 h3
  all_goals first | exact ⟨h1, h2⟩ | omega

lemma filter_rank0_eq_high (l : List GapItem) :
    l.filter (fun g => impactRank g == 0) = l.filter (fun g => g.impact == "high") := by
  apply List.filter_congr
  intro x _
  unfold impactRank
  split_ifs <;> simp [*]

lemma filter_rank1_eq_med (l : List GapItem) :
    l.filter (fun g => impactRank g == 1) = l.filter (fun g => g.impact == "medium") := by
  apply List.filter_congr
  intro x _
  unfold impactRank
  split_ifs <;> simp [*]

lemma filter_hm_sorted (l : List GapItem) :
    (sortGaps l).filter (fun g => g.impact == "high" || g.impact == "medium")
      = l.filter (fun g => g.impact == "high")
        ++ l.filter (fun g => g.impact == "medium") := by
  rw [sortGaps_grouped, List.filter_append, List.filter_append, List.filter_append]
  have e0 : (l.filter (fun g => impactRank g == 0)).filter
      (fun g => g.impact == "high" || g.impact == "medium")
      = l.filter (fun g => g.impact == "high") := by
    rw [List.filter_eq_self.mpr, filter_rank0_eq_high]
    intro x hx
    have hh := rank_eq_high (mem_filter_rank hx)
    simp [hh]
  have e1 : (l.filter (fun g => impactRank g == 1)).filter
      (fun g => g.impact == "high" || g.impact == "medium")
      = l.filter (fun g => g.impact == "medium") := by
    rw [List.filter_eq_self.mpr, filter_rank1_eq_med]
    intro x hx
    have hh := rank_eq_med (mem_filter_rank hx)
    simp [hh]
  have e2 : (l.filter (fun g => impactRank g == 2)).filter
      (fun g => g.impact == "high" || g.impact == "medium") = [] := by
    apply List.filter_eq_nil_iff.mpr
    intro x hx
    have hh := rank_eq_low (mem_filter_rank hx)
    simp [hh]
  have e3 : (l.filter (fun g => impactRank g == 3)).filter
      (fun g => g.impact == "high" || g.impact == "medium") = [] := by
    apply List.filter_eq_nil_iff.mpr
    intro x hx
    obtain ⟨hh, hm⟩ := rank_eq_other (mem_filter_rank hx)
    simp [hh, hm]
  rw [e0, e1, e2, e3, List.append_nil, List.append_nil]

/-- C8 amended: the blockers aggregate equals the high-impact gaps (in
original order) followed by the medium-impact gaps (in original order),
capped at 3; low and unknown impacts are dropped, and the fallback to
missing must-have requirement names is taken whenever no high or medium
gap exists, not only when the gaps list is empty. -/
theorem topBlockers_spec :
    ∀ r : FitReport,
      topBlockers r =
        if ((r.gaps.filter (fun g => g.impact == "high")).map (fun g => g.gap)
            ++ (r.gaps.filter (fun g => g.impact == "medium")).map (fun g => g.gap)).take 3
            = [] then
          ((r.must_have_match.filter (fun m => m.status == "missing")).map
            (fun m => m.requirement)).take 3
        else
          ((r.gaps.filter (fun g => g.impact == "high")).map (fun g => g.gap)
            ++ (r.gaps.filter (fun g => g.impact == "medium")).map (fun g => g.gap)).take 3 := by
  intro r
  unfold topBlockers
  simp only [filter_hm_sorted, List.map_append]
  by_cases h : (((r.gaps.filter (fun g => g.impact == "high")).map (fun g => g.gap)
      ++ (r.gaps.filter (fun g => g.impact == "medium")).map (fun g => g.gap)).take 3) = []
  · simp [h]
  · simp [h, List.isEmpty_iff]

/-- Python str.replace for a single-character pattern: every occurrence
is replaced, scanning left to right. -/
def replaceChar (c : Char) (rep : List Char) : List Char → List Char
  | [] => []
  | x :: rest =>
    if x = c then rep ++ replaceChar c rep rest
    else x :: replaceChar c rep rest

/-- The five sequential replacements of html_escape in utility.py,
ampersand first, on a character list. -/
def escAll (cs : List Char) : List Char :=
  replaceChar '\'' "&#39;".toList
    (replaceChar '"' "&quot;".toList
      (replaceChar '>' "&gt;".toList
        (replaceChar '<' "&lt;".toList
          (replaceChar '&' "&amp;".toList cs))))

/-- html_escape from utility.py (the falsy-input guard only turns None
into the empty string, which escapes to itself). -/
def html_escape (s : String) : String := (escAll s.toList).asString

/-- Image of one character under the whole escaping pipeline. -/
def escChar (c : Char) : List Char :=
  if c = '&' then "&amp;".toList
  else if c = '<' then "&lt;".toList
  else if c = '>' then "&gt;".toList
  else if c = '"' then "&quot;".toList
  else if c = '\'' then "&#39;".toList
  else [c]

/-- Single-pass escaping: each character mapped independently, so no
output of one replacement is ever re-escaped by a later one. -/
def escList : List Char → List Char
  | [] => []
  | c :: rest => escChar c ++ escList rest

lemma replaceChar_append (c : Char) (rep a b : List Char) :
    replaceChar c rep (a ++ b) = replaceChar c rep a ++ replaceChar c rep b := by
  induction a with
  | nil => rfl
  | cons x t ih =>
    by_cases h : x = c <;> simp [replaceChar, h, ih]

lemma escAll_append (a b : List Char) :
    escAll (a ++ b) = escAll a ++ escAll b := by
  simp [escAll, replaceChar_append]

lemma escAll_single (c : Char) : escAll [c] = escChar c := by
  by_cases h1 : c = '&'
  · subst h1
    rfl
  · by_cases h2 : c = '<'
    · subst h2
      rfl
    · by_cases h3 : c = '>'
      · subst h3
        rfl
      · by_cases h4 : c = '"'
        · subst h4
          rfl
        · by_cases h5 : c = '\''
          · subst h5
            rfl
          · simp [escAll, replaceChar, escChar, h1, h2, h3, h4, h5]

lemma escAll_cons (c : Char) (rest : List Char) :
    escAll (c :: rest) = escChar c ++ escAll rest := by
  rw [show c :: rest = [c] ++ rest from rfl, escAll_append, escAll_single]

lemma escAll_eq_escList (cs : List Char) : escAll cs = escList cs := by
  induction cs with
  | nil => rfl
  | cons c rest ih => rw [escAll_cons, ih, escList]

/-- The four characters that must never appear raw in escaped output. -/
def isRawSpecial (c : Char) : Bool :=
  c = '<' || c = '>' || c = '"' || c = '\''

/-- Every ampersand starts one of the five entity escapes. -/
def ampOk : List Char → Bool
  | [] => true
  | c :: rest =>
    if c = '&' then
      ("amp;".toList.isPrefixOf rest || "lt;".toList.isPrefixOf rest ||
       "gt;".toList.isPrefixOf rest || "quot;".toList.isPrefixOf rest ||
       "#39;".toList.isPrefixOf rest) && ampOk rest
    else ampOk rest

/-- Escaped-output safety: no raw special characters and every
ampersand opens an entity. -/
def htmlSafe (cs : List Char) : Bool :=
  cs.all (fun c => !(isRawSpecial c)) && ampOk cs

lemma ampOk_cons_ne {c : Char} (h : ¬ c = '&') (L : List Char) :
    ampOk (c :: L) = ampOk L := by
  simp [ampOk, h]

lemma ampOk_escChar (c : Char) (L : List Char) (hL : ampOk L = true) :
    ampOk (escChar c ++ L) = true := by
  by_cases h1 : c = '&'
  · subst h1
    show ampOk ('&' :: 'a' :: 'm' :: 'p' :: ';' :: L) = true
    rw [ampOk]
    simp only [if_pos rfl]
    rw [ampOk_cons_ne (by decide), ampOk_cons_ne (by decide),
      ampOk_cons_ne (by decide), ampOk_cons_ne (by decide), hL]
    simp [List.isPrefixOf]
  · by_cases h2 : c = '<'
    · subst h2
      show ampOk ('&' :: 'l' :: 't' :: ';' :: L) = true
      rw [ampOk]
      simp only [if_pos rfl]
      rw [ampOk_cons_ne (by decide), ampOk_cons_ne (by decide),
        ampOk_cons_ne (by decide), hL]
      simp [List.isPrefixOf]
    · by_cases h3 : c = '>'
      · subst h3
        show ampOk ('&' :: 'g' :: 't' :: ';' :: L) = true
        rw [ampOk]
        simp only [if_pos rfl]
        rw [ampOk_cons_ne (by decide), ampOk_cons_ne (by decide),
          ampOk_cons_ne (by decide), hL]
        simp [List.isPrefixOf]
      · by_cases h4 : c = '"'
        · subst h4
          show ampOk ('&' :: 'q' :: 'u' :: 'o' :: 't' :: ';' :: L) = true
          rw [ampOk]
          simp only [if_pos rfl]
          rw [ampOk_cons_ne (by decide), ampOk_cons_ne (by decide),
            ampOk_cons_ne (by decide), ampOk_cons_ne (by decide),
            ampOk_cons_ne (by decide), hL]
          simp [List.isPrefixOf]
        · by_cases h5 : c = '\''
          · subst h5
            show ampOk ('&' :: '#' :: '3' :: '9' :: ';' :: L) = true
            rw [ampOk]
            simp only [if_pos rfl]
            rw [ampOk_cons_ne (by decide), ampOk_cons_ne (by decide),
              ampOk_cons_ne (by decide), ampOk_cons_ne (by decide), hL]
            simp [List.isPrefixOf]
          · show ampOk ((if c = '&' then "&amp;".toList
              else if c = '<' then "&lt;".toList
              else if c = '>' then "&gt;".toList
              else if c = '"' then "&quot;".toList
              else if c = '\'' then "&#39;".toList
              else [c]) ++ L) = true
            rw [if_neg h1, if_neg h2, if_neg h3, if_neg h4, if_neg h5]
            rw [List.singleton_append, ampOk_cons_ne h1, hL]

lemma noRaw_escChar (c : Char) :
    (escChar c).all (fun x => !(isRawSpecial x)) = true := by
  by_cases h1 : c = '&'
  · subst h1
    decide
  · by_cases h2 : c = '<'
    · subst h2
      decide
    · by_cases h3 : c = '>'
      · subst h3
        decide
      · by_cases h4 : c = '"'
        · subst h4
          decide
        · by_cases h5 : c = '\''
          · subst h5
            decide
          · simp [escChar, isRawSpecial, h1, h2, h3, h4, h5]

lemma htmlSafe_escAll (cs : List Char) : htmlSafe (escAll cs) = true := by
  unfold htmlSafe
  induction cs with
  | nil => decide
  | cons c rest ih =>
    rw [escAll_cons]
    simp only [Bool.and_eq_true] at ih
    rw [List.all_append, Bool.and_eq_true, Bool.and_eq_true]
    exact ⟨⟨noRaw_escChar c, ih.1⟩, ampOk_escChar c _ ih.2⟩

lemma html_escape_safe (s : String) : htmlSafe (html_escape s).toList = true := by
  unfold html_escape
  rw [List.toList_asString]
  exact htmlSafe_escAll _

/-- Indentation for the pretty JSON dump. -/
def spaces (n : ℕ) : String := (List.replicate n ' ').asString

/-- Modelled from the spec: string quoting of the stdlib JSON dumper
(json.dumps with ensure_ascii False), sufficient for the report dump. -/
def jsonEscapeChar (c : Char) : List Char :=
  if c = '"' then ['\\', '"']
  else if c = '\\' then ['\\', '\\']
  else if c = '\n' then ['\\', 'n']
  else if c = '\t' then ['\\', 't']
  else if c = '\r' then ['\\', 'r']
  else if c = Char.ofNat 8 then ['\\', 'b']
  else if c = Char.ofNat 12 then ['\\', 'f']
  else if c.val < 32 then
    ['\\', 'u', '0', '0',
     (if c.val / 16 < 10 then Char.ofNat (48 + c.val.toNat / 16) else Char.ofNat (87 + c.val.toNat / 16)),
     (if c.val % 16 < 10 then Char.ofNat (48 + c.val.toNat % 16) else Char.ofNat (87 + c.val.toNat % 16))]
  else [c]

/-- Modelled from the spec: JSON string literal. -/
def jsonQuote (s : String) : String :=
  "\"" ++ (s.toList.foldr (fun c acc => jsonEscapeChar c ++ acc) []).asString ++ "\""

/-- Modelled from the spec: a JSON array at the given item indentation,
as json.dumps prints it with indent 2. -/
def jlist (ind : ℕ) (items : List String) : String :=
  if items.isEmpty then "[]"
  else
    "[\n" ++ String.intercalate ",\n" (items.map (fun v => spaces ind ++ v)) ++
    "\n" ++ spaces (ind - 2) ++ "]"

/-- Modelled from the spec: a JSON object at the given field
indentation, as json.dumps prints it with indent 2. -/
def jobjFmt (ind : ℕ) (fields : List (String × String)) : String :=
  if fields.isEmpty then "\x7b\x7d"
  else
    "\x7b\n" ++
    String.intercalate ",\n"
      (fields.map (fun kv => spaces ind ++ jsonQuote kv.1 ++ ": " ++ kv.2)) ++
    "\n" ++ spaces (ind - 2) ++ "\x7d"

/-- Modelled from the spec: json.dumps on a MatchItem model dump. -/
def dumpMatchItem (ind : ℕ) (m : MatchItem) : String :=
  jobjFmt ind
    [("requirement", jsonQuote m.requirement),
     ("status", jsonQuote m.status),
     ("evidence", jlist (ind + 2) (m.evidence.map jsonQuote))]

/-- Modelled from the spec: json.dumps on a GapItem model dump. -/
def dumpGapItem (ind : ℕ) (g : GapItem) : String :=
  jobjFmt ind
    [("gap", jsonQuote g.gap),
     ("impact", jsonQuote g.impact),
     ("how_to_fix", jlist (ind + 2) (g.how_to_fix.map jsonQuote))]

/-- Modelled from the spec: json.dumps on a SuggestionItem model dump. -/
def dumpSuggestionItem (ind : ℕ) (s : SuggestionItem) : String :=
  jobjFmt ind
    [("section", jsonQuote s.section_),
     ("change", jsonQuote s.change),
     ("reason", jsonQuote s.reason),
     ("priority", jsonQuote s.priority)]

/-- Modelled from the spec: json.dumps on a LinkedInSuggestionItem model
dump. -/
def dumpLinkedInItem (ind : ℕ) (s : LinkedInSuggestionItem) : String :=
  jobjFmt ind
    [("section", jsonQuote s.section_),
     ("change", jsonQuote s.change),
     ("reason", jsonQuote s.reason),
     ("priority", jsonQuote s.priority)]

/-- Modelled from the spec: json.dumps on an ATSKeywordItem model dump. -/
def dumpATSItem (ind : ℕ) (k : ATSKeywordItem) : String :=
  jobjFmt ind
    [("keyword", jsonQuote k.keyword),
     ("where_to_add", jsonQuote k.where_to_add),
     ("note", jsonQuote k.note)]

/-- Modelled from the spec: json_pretty of a FitReport model dump, the
pretty-printed JSON written to disk and embedded (escaped) in the
report page. -/
def json_pretty_report (r : FitReport) : String :=
  jobjFmt 2
    [("fit_score", toString r.fit_score),
     ("confidence", jsonQuote r.confidence),
     ("summary", jsonQuote r.summary),
     ("must_have_match", jlist 4 (r.must_have_match.map (dumpMatchItem 6))),
     ("nice_to_have_match", jlist 4 (r.nice_to_have_match.map (dumpMatchItem 6))),
     ("gaps", jlist 4 (r.gaps.map (dumpGapItem 6))),
     ("cv_suggestions", jlist 4 (r.cv_suggestions.map (dumpSuggestionItem 6))),
     ("linkedin_suggestions", jlist 4 (r.linkedin_suggestions.map (dumpLinkedInItem 6))),
     ("ats_keywords", jlist 4 (r.ats_keywords.map (dumpATSItem 6))),
     ("final_note", jsonQuote r.final_note)]

/-- Last path component, modelling pathlib Path(p).name on posix
paths. -/
def pathName (p : String) : String :=
  ((p.toList.reverse.takeWhile (fun c => c ≠ '/')).reverse).asString

/-- Name of the parent directory, modelling Path(p).parent.name on
posix paths. -/
def pathParentName (p : String) : String :=
  match p.toList.reverse.dropWhile (fun c => c ≠ '/') with
  | _ :: r => ((r.takeWhile (fun c => c ≠ '/')).reverse).asString
  | [] => ""

/-- Top-strengths aggregate of render_report_html in core.py: matched
requirements first, then partial ones, must-have and nice-to-have
combined, capped at 3. -/
def strengths (report : FitReport) : List String :=
  let pool := report.must_have_match ++ report.nice_to_have_match
  (((pool.filter (fun m => m.status == "match")).map (fun m => m.requirement)) ++
   ((pool.filter (fun m => m.status == "partial")).map (fun m => m.requirement))).take 3

/-- The _card helper of core.py (leading underscore dropped): one HTML
card with the inner text escaped. -/
def card (text : String) (kind : String) : String :=
  let icon := if kind = "pos" then "✓" else "!"
  "<div class=\"qitem\">" ++
  "  <div class=\"qicon " ++ kind ++ "\">" ++ icon ++ "</div>" ++
  "  <div class=\"qtext\">" ++ html_escape text ++ "</div>" ++
  "</div>"

/-- The string-to-string value map render_report_html builds for the
template, in source order. Every entry except score_bar_class and the
two prebuilt card fragments goes through html_escape. -/
def render_values (report : FitReport) (json_path : String) (job_title : String) :
    List (String × String) :=
  let d := decide_ui report
  let strengthsL := strengths report
  let blockersL := topBlockers report
  let strengths_cards :=
    (let j := String.intercalate "\n" ((strengthsL.take 3).map (fun x => card x "pos"))
     if j = "" then "<div class=\"qempty\">Nessun punto a favore rilevante.</div>" else j)
  let blockers_cards :=
    (let j := String.intercalate "\n" ((blockersL.take 3).map (fun x => card x "neg"))
     if j = "" then "<div class=\"qempty\">Nessun blocco principale.</div>" else j)
  let score := max 0 (min 100 report.fit_score)
  let score_bar_class :=
    if score ≤ 50 then "bar-red" else if score ≤ 75 then "bar-yellow" else "bar-green"
  [("json_file_name", html_escape (pathName json_path)),
   ("decision_label", html_escape d.label),
   ("decision_reason", html_escape d.reason),
   ("decision_badge", html_escape d.badge),
   ("decision_code", html_escape d.code),
   ("fit_score", html_escape (toString score)),
   ("confidence", html_escape report.confidence),
   ("next_step", html_escape d.next_step),
   ("summary", html_escape report.summary),
   ("final_note", html_escape report.final_note),
   ("json_dump", html_escape (json_pretty_report report)),
   ("job_title", html_escape (if job_title = "" then "Posizione LinkedIn" else job_title)),
   ("score_bar_class", score_bar_class),
   ("job_id", html_escape (pathParentName json_path)),
   ("strengths_cards", strengths_cards),
   ("blockers_cards", blockers_cards),
   ("strengths_count", html_escape (toString (min strengthsL.length 3) ++ "/3")),
   ("blockers_count", html_escape (toString (min blockersL.length 3) ++ "/3"))]

/-- A minimal valid report: zero score, empty lists and texts. -/
def plainReport : FitReport :=
  { fit_score := 0, confidence := "low", summary := "",
    must_have_match := [], nice_to_have_match := [], gaps := [],
    cv_suggestions := [], linkedin_suggestions := [], ats_keywords := [],
    final_note := "" }

/-- C10 counterexample: the strengths_cards value of the rendered map is
prebuilt HTML containing raw angle brackets, so it is not the
html_escape image of any string; hence not every value of the map
passes through html_escape. -/
theorem render_values_claim_false :
    ¬ (∀ kv ∈ render_values plainReport "outputs/j1/fit_report.json" "T",
        ∃ s, kv.2 = html_escape s) := by
  intro h
  have hmem : (("strengths_cards",
      "<div class=\"qempty\">Nessun punto a favore rilevante.</div>") : String × String) ∈
      render_values plainReport "outputs/j1/fit_report.json" "T" := by decide
  obtain ⟨s, hs⟩ := h _ hmem
  have hgood := html_escape_safe s
  rw [← hs] at hgood
  have hbad : htmlSafe
      ("<div class=\"qempty\">Nessun punto a favore rilevante.</div>" : String).toList
      = false := by decide
  rw [hbad] at hgood
  simp at hgood

/-- C10 amended: html_escape output never contains a raw angle bracket,
double quote or single quote and every ampersand in it opens one of the
five entities; escaping is the single per-character pass (ampersand
first, so nothing is double-escaped); and every value of the rendered
map except score_bar_class and the two prebuilt card fragments is the
html_escape image of its source string. -/
theorem render_values_escaped :
    (∀ s : String, htmlSafe (html_escape s).toList = true) ∧
    (∀ s : String, (html_escape s).toList = escList s.toList) ∧
    html_escape "" = "" ∧
    (∀ (report : FitReport) (jp jt : String) (kv : String × String),
      kv ∈ render_values report jp jt →
      kv.1 ∉ (["score_bar_class", "strengths_cards", "blockers_cards"] : List String) →
      ∃ s, kv.2 = html_escape s) := by
  refine ⟨html_escape_safe, ?_, rfl, ?_⟩
  · intro s
    unfold html_escape
    rw [List.toList_asString, escAll_eq_escList]
  · intro report jp jt kv hkv hexcl
    simp only [render_values, List.mem_cons, List.not_mem_nil, or_false] at hkv
    rcases hkv with rfl|rfl|rfl|rfl|rfl|rfl|rfl|rfl|rfl|rfl|rfl|rfl|rfl|rfl|rfl|rfl|rfl|rfl
    all_goals first
      | exact ⟨_, rfl⟩
      | (exfalso; simp at hexcl)

/-- Witness for C10 at a concrete input: the summary entry of the map on
plainReport is an html_escape image. -/
theorem render_values_escaped_witness :
    ∃ s, (("summary", html_escape "") : String × String).2 = html_escape s :=
  render_values_escaped.2.2.2 plainReport "outputs/j1/fit_report.json" "T"
    ("summary", html_escape "") (by decide) (by decide)
